import Mathlib

/-!
Shallow embedding of the native audio core of `flutter_multitracker`
(`android/src/main/cpp/instrument_manager.cpp` and `sequence_manager.cpp`).

`std::map` / `std::set` members are embedded as association lists over `Int`
keys (`std::map` has unique keys; reachable states keep the key lists
duplicate-free).  `float` / `double` quantities are idealized as `ℝ`
(respectively `ℚ` for the sequencer's beat times, which are only compared),
machine `int` as `Int`.  Logging, locking and JNI plumbing are dropped; the
`try`/`catch` wrappers never fire in the pure embedding, so every operation
is total.
-/

namespace Multitracker

/-- Lookup in an association list, mirroring `std::map::find`. -/
def alFind {β : Type} (k : Int) : List (Int × β) → Option β
  | [] => none
  | (a, b) :: t => if a = k then some b else alFind k t

/-- Insert-or-replace, mirroring `std::map::operator[]` followed by
assignment.  A missing key is appended. -/
def alUpdate {β : Type} (k : Int) (v : β) : List (Int × β) → List (Int × β)
  | [] => [(k, v)]
  | (a, b) :: t => if a = k then (k, v) :: t else (a, b) :: alUpdate k v t

/-- Key removal, mirroring `std::map::erase`. -/
def alErase {β : Type} (k : Int) (l : List (Int × β)) : List (Int × β) :=
  l.filter (fun p => p.1 ≠ k)

/-- The key list of an association list. -/
def alKeys {β : Type} (l : List (Int × β)) : List Int :=
  l.map Prod.fst

/-- `std::set<int>::insert`: membership-preserving insertion (the embedding
keeps insertion order instead of sorted order; only membership is ever
observed). -/
def setInsert (n : Int) (s : List Int) : List Int :=
  if n ∈ s then s else s ++ [n]

theorem alFind_alUpdate_self {β : Type} (k : Int) (v : β) (l : List (Int × β)) :
    alFind k (alUpdate k v l) = some v := by
  induction l with
  | nil => simp [alFind, alUpdate]
  | cons p t ih =>
    obtain ⟨a, b⟩ := p
    by_cases h : a = k
    · simp [alFind, alUpdate, h]
    · simp [alFind, alUpdate, h, ih]

theorem alFind_alUpdate_ne {β : Type} {k k' : Int} (v : β) (l : List (Int × β))
    (h : k ≠ k') : alFind k' (alUpdate k v l) = alFind k' l := by
  induction l with
  | nil => simp [alFind, alUpdate, h]
  | cons p t ih =>
    obtain ⟨a, b⟩ := p
    by_cases ha : a = k
    · subst ha
      simp [alFind, alUpdate, h]
    · by_cases ha' : a = k'
      · simp [alFind, alUpdate, ha, ha', Ne.symm h]
      · simp [alFind, alUpdate, ha, ha', ih]

theorem alUpdate_self {β : Type} {k : Int} {v : β} {l : List (Int × β)}
    (h : alFind k l = some v) : alUpdate k v l = l := by
  induction l with
  | nil => simp [alFind] at h
  | cons p t ih =>
    obtain ⟨a, b⟩ := p
    by_cases ha : a = k
    · subst ha
      simp [alFind] at h
      simp [alUpdate, h]
    · simp [alFind, ha] at h
      simp [alUpdate, ha, ih h]

theorem alFind_alErase_self {β : Type} (k : Int) (l : List (Int × β)) :
    alFind k (alErase k l) = none := by
  induction l with
  | nil => simp [alFind, alErase]
  | cons p t ih =>
    obtain ⟨a, b⟩ := p
    by_cases ha : a = k
    · subst ha
      simpa [alErase, alFind] using ih
    · simp [alErase, alFind, ha] at ih ⊢
      exact ih

theorem alFind_alErase_ne {β : Type} {k k' : Int} (l : List (Int × β))
    (h : k ≠ k') : alFind k' (alErase k l) = alFind k' l := by
  induction l with
  | nil => simp [alFind, alErase]
  | cons p t ih =>
    obtain ⟨a, b⟩ := p
    by_cases ha : a = k
    · subst ha
      simp [alErase, alFind, h] at ih ⊢
      exact ih
    · by_cases ha' : a = k'
      · simp [alErase, alFind, ha, ha', Ne.symm h]
      · simp [alErase, alFind, ha, ha'] at ih ⊢
        exact ih

theorem alErase_of_alFind_none {β : Type} {k : Int} {l : List (Int × β)}
    (h : alFind k l = none) : alErase k l = l := by
  induction l with
  | nil => simp [alErase]
  | cons p t ih =>
    obtain ⟨a, b⟩ := p
    by_cases ha : a = k
    · simp [alFind, ha] at h
    · simp [alFind, ha] at h
      simp [alErase, ha] at ih ⊢
      exact ih h

/-! ## Instrument data model (`instrument_manager.h`) -/

/-- `enum class InstrumentType`. -/
inductive InstrumentType
  | UNDEFINED
  | SINE_WAVE
  | SFZ
  | SF2
deriving DecidableEq

/-- `struct Instrument` (the `float volume` is idealized as `ℝ`). -/
structure Instrument where
  type : InstrumentType
  name : String
  filePath : String
  volume : ℝ

/-- The fields written by `createSineWaveInstrument` on a
default-constructed `Instrument`. -/
def sineInstrument (name : String) : Instrument :=
  { type := InstrumentType.SINE_WAVE, name := name, filePath := "", volume := 1 }

/-- The mutable state of `class InstrumentManager`.  `m_audioEngine` and the
mutex carry no observable state and are dropped; the process-wide static
counter of `generateUniqueId` is embedded as the `nextId` field (it starts
at 1 and only ever increments). -/
structure InstrumentManager where
  isInitialized : Bool
  sampleRate : Int
  nextId : Int
  instruments : List (Int × Instrument)
  activeNotes : List (Int × List Int)
  noteVelocities : List (Int × List (Int × Int))
  notePhases : List (Int × List (Int × ℝ))

/-- A freshly constructed `InstrumentManager` after `init()` with the audio
engine reporting sample rate `sr` (the constructor defaults to 44100). -/
def initialManager (sr : Int) : InstrumentManager :=
  { isInitialized := true, sampleRate := sr, nextId := 1,
    instruments := [], activeNotes := [], noteVelocities := [], notePhases := [] }

/-- The active-note set of an instrument (`m_activeNotes[id]`, empty when
the id has no entry). -/
def activeOf (st : InstrumentManager) (instrumentId : Int) : List Int :=
  (alFind instrumentId st.activeNotes).getD []

/-- The stored velocity entry for a note, if any. -/
def velocityEntry (st : InstrumentManager) (instrumentId noteNumber : Int) : Option Int :=
  alFind noteNumber ((alFind instrumentId st.noteVelocities).getD [])

/-- The stored phase entry for a note, if any. -/
def phaseEntry (st : InstrumentManager) (instrumentId noteNumber : Int) : Option ℝ :=
  alFind noteNumber ((alFind instrumentId st.notePhases).getD [])

/-! ## `InstrumentManager::createSineWaveInstrument`
(`instrument_manager.cpp` lines 82–132).  There is no check of the
instrument count against `MAX_INSTRUMENTS` anywhere in the function: the
`catch` clauses returning `-1` are the only failure paths, and they cannot
fire in the pure embedding. -/

def createSineWaveInstrument (name : String) (st : InstrumentManager) :
    Int × InstrumentManager :=
  let instrumentId := st.nextId
  let st1 : InstrumentManager :=
    { st with
      nextId := st.nextId + 1
      instruments := alUpdate instrumentId (sineInstrument name) st.instruments
      activeNotes := alUpdate instrumentId [] st.activeNotes
      noteVelocities := alUpdate instrumentId [] st.noteVelocities
      notePhases := alUpdate instrumentId [] st.notePhases }
  -- "Always create ID 0 as a special default instrument if it doesn't exist"
  if instrumentId ≠ 0 ∧ (alFind 0 st1.instruments).isNone then
    (instrumentId,
      { st1 with
        instruments := alUpdate 0 (sineInstrument "Default Sine Wave") st1.instruments
        activeNotes := alUpdate 0 [] st1.activeNotes
        noteVelocities := alUpdate 0 [] st1.noteVelocities
        notePhases := alUpdate 0 [] st1.notePhases })
  else (instrumentId, st1)

/-- `InstrumentManager::unloadInstrument` (lines 135–159). -/
def unloadInstrument (instrumentId : Int) (st : InstrumentManager) :
    Bool × InstrumentManager :=
  match alFind instrumentId st.instruments with
  | none => (false, st)
  | some _ =>
    (true,
      { st with
        instruments := alErase instrumentId st.instruments
        activeNotes := alErase instrumentId st.activeNotes
        noteVelocities := alErase instrumentId st.noteVelocities
        notePhases := alErase instrumentId st.notePhases })

/-- `InstrumentManager::sendNoteOn` (lines 316–368).  An unknown id falls
back to instrument 0 when that exists; note and velocity are validated
(rejected, not clamped); on success the note is inserted into the active
set, the velocity stored verbatim, and the phase reset to 0. -/
def sendNoteOn (instrumentId noteNumber velocity : Int) (st : InstrumentManager) :
    Bool × InstrumentManager :=
  match
    (if (alFind instrumentId st.instruments).isSome then some instrumentId
     else if (alFind 0 st.instruments).isSome then some 0
     else none) with
  | none => (false, st)
  | some iid =>
    if noteNumber < 0 ∨ noteNumber > 127 then (false, st)
    else if velocity < 0 ∨ velocity > 127 then (false, st)
    else
      match alFind iid st.instruments with
      | none => (false, st)  -- unreachable: `iid` resolved to a present key
      | some inst =>
        match inst.type with
        | InstrumentType.SINE_WAVE =>
          (true,
            { st with
              activeNotes :=
                alUpdate iid (setInsert noteNumber (activeOf st iid)) st.activeNotes
              noteVelocities :=
                alUpdate iid (alUpdate noteNumber velocity
                  ((alFind iid st.noteVelocities).getD [])) st.noteVelocities
              notePhases :=
                alUpdate iid (alUpdate noteNumber (0 : ℝ)
                  ((alFind iid st.notePhases).getD [])) st.notePhases })
        | _ => (false, st)

/-- The active-note cleanup block of `sendNoteOff` (lines 395–414): remove
the note from the instrument's active set and drop the whole entry when the
set becomes (or already was) empty. -/
def noteOffActive (instrumentId noteNumber : Int) (st : InstrumentManager) :
    InstrumentManager :=
  match alFind instrumentId st.activeNotes with
  | none => st
  | some notes =>
    if (notes.filter fun m => m ≠ noteNumber).isEmpty then
      { st with activeNotes := alErase instrumentId st.activeNotes }
    else
      { st with activeNotes :=
          alUpdate instrumentId (notes.filter fun m => m ≠ noteNumber) st.activeNotes }

/-- The velocity-map cleanup block of `sendNoteOff` (lines 416–425). -/
def noteOffVels (instrumentId noteNumber : Int) (st : InstrumentManager) :
    InstrumentManager :=
  match alFind instrumentId st.noteVelocities with
  | none => st
  | some vels =>
    if (alErase noteNumber vels).isEmpty then
      { st with noteVelocities := alErase instrumentId st.noteVelocities }
    else
      { st with noteVelocities :=
          alUpdate instrumentId (alErase noteNumber vels) st.noteVelocities }

/-- `InstrumentManager::sendNoteOff` (lines 371–435).  Requires the manager
initialized, the note in `[0, MAX_NOTES)` and the instrument present; then
removes the note from the active set and the velocity map (erasing
either container's entry when it becomes empty) and returns `true` whether
or not the note was active.  Stored phases are not touched. -/
def sendNoteOff (instrumentId noteNumber : Int) (st : InstrumentManager) :
    Bool × InstrumentManager :=
  if st.isInitialized = false then (false, st)
  else if noteNumber < 0 ∨ noteNumber ≥ 128 then (false, st)
  else
    match alFind instrumentId st.instruments with
    | none => (false, st)
    | some _ =>
      (true, noteOffVels instrumentId noteNumber (noteOffActive instrumentId noteNumber st))

/-- `InstrumentManager::setInstrumentVolume` (lines 459–482): clamps the
volume to `[0, 1]` and stores it; `false` for an unknown id. -/
noncomputable def setInstrumentVolume (instrumentId : Int) (volume : ℝ)
    (st : InstrumentManager) : Bool × InstrumentManager :=
  match alFind instrumentId st.instruments with
  | none => (false, st)
  | some inst =>
    (true,
      { st with instruments :=
          alUpdate instrumentId { inst with volume := max 0 (min 1 volume) } st.instruments })

/-- `InstrumentManager::stopAllNotes()` (lines 544–565): clears the note
state of every loaded instrument (`operator[]` creates the cleared entries
when absent). -/
def stopAllNotes (st : InstrumentManager) : InstrumentManager :=
  st.instruments.foldl
    (fun acc p =>
      { acc with
        activeNotes := alUpdate p.1 [] acc.activeNotes
        noteVelocities := alUpdate p.1 [] acc.noteVelocities
        notePhases := alUpdate p.1 [] acc.notePhases })
    st

/-- `InstrumentManager::stopAllNotes(int)` (lines 568–595). -/
def stopAllNotesFor (instrumentId : Int) (st : InstrumentManager) :
    Bool × InstrumentManager :=
  match alFind instrumentId st.instruments with
  | none => (false, st)
  | some _ =>
    (true,
      { st with
        activeNotes := alUpdate instrumentId [] st.activeNotes
        noteVelocities := alUpdate instrumentId [] st.noteVelocities
        notePhases := alUpdate instrumentId [] st.notePhases })

/-! ## `InstrumentManager::renderAudio` (lines 182–313)

The stereo output buffer (`float*`, written at indices `0 .. 2*numFrames`)
is embedded as a total function `ℕ → ℝ`; the call returns the new manager
state (only `notePhases` changes) together with the new buffer contents.
The `float` arithmetic is idealized over `ℝ`. -/

/-- `InstrumentManager::midiNoteToFrequency` (lines 176–179). -/
noncomputable def midiNoteToFrequency (note : Int) : ℝ :=
  440 * (2 : ℝ) ^ (((note : ℝ) - 69) / 12)

/-- The wrap bound `2.0f * M_PI` used by the render loop. -/
noncomputable def twoPi : ℝ := 2 * Real.pi

/-- One sample's phase update: `phase += inc; if (phase >= 2π) phase -= 2π`. -/
noncomputable def phaseStep (inc p : ℝ) : ℝ :=
  if p + inc ≥ twoPi then p + inc - twoPi else p + inc

/-- The phase after `n` samples of the render loop. -/
noncomputable def phaseAdvance (inc : ℝ) : ℕ → ℝ → ℝ
  | 0, p => p
  | n + 1, p => phaseAdvance inc n (phaseStep inc p)

/-- Per-sample phase increment `2π * frequency / sampleRate` of a note. -/
noncomputable def noteIncrement (sr note : Int) : ℝ :=
  twoPi * midiNoteToFrequency note / (sr : ℝ)

/-- `numFrames = std::max(1, std::min(numFrames, 4096))`. -/
def clampFrames (numFrames : Int) : ℕ :=
  (max 1 (min numFrames 4096)).toNat

/-- The amplitude of one note:
`(0.3 / sqrt(noteCount)) * instrumentVolume * (velocity / 127) * masterVolume`. -/
noncomputable def noteAmplitude (noteCount : ℕ) (instVolume master : ℝ) (vel : Int) : ℝ :=
  0.3 / Real.sqrt (noteCount : ℝ) * instVolume * ((vel : ℝ) / 127) * master

/-- The contribution of one instrument's active-note entry to the mix at
frame `i` (0 when the instrument id is not loaded — the loop `continue`s). -/
noncomputable def instrumentMix (st : InstrumentManager) (master : ℝ) (i : ℕ)
    (e : Int × List Int) : ℝ :=
  match alFind e.1 st.instruments with
  | none => 0
  | some inst =>
    (e.2.map (fun note =>
      noteAmplitude e.2.length inst.volume master
          ((alFind note ((alFind e.1 st.noteVelocities).getD [])).getD 64)
        * Real.sin (phaseAdvance (noteIncrement st.sampleRate note) i
            ((alFind note ((alFind e.1 st.notePhases).getD [])).getD 0)))).sum

/-- The mixed (pre-limiter) sample at frame `i`, identical on both
stereo channels. -/
noncomputable def mixAt (st : InstrumentManager) (master : ℝ) (i : ℕ) : ℝ :=
  (st.activeNotes.map (instrumentMix st master i)).sum

/-- Advance the stored phases of one instrument's notes by `n` samples
(each note's phase is created at 0 when missing, matching `operator[]`). -/
noncomputable def advanceNotePhases (sr : Int) (n : ℕ) (notes : List Int)
    (pm : List (Int × ℝ)) : List (Int × ℝ) :=
  notes.foldl
    (fun pm note =>
      alUpdate note
        (phaseAdvance (noteIncrement sr note) n ((alFind note pm).getD 0)) pm)
    pm

/-- Fold step over one `m_activeNotes` entry: skipped when the note set is
empty or the instrument id is not loaded. -/
noncomputable def advanceInstrumentEntry (st : InstrumentManager) (n : ℕ)
    (acc : List (Int × List (Int × ℝ))) (e : Int × List Int) :
    List (Int × List (Int × ℝ)) :=
  if e.2.isEmpty || (alFind e.1 st.instruments).isNone then acc
  else
    alUpdate e.1 (advanceNotePhases st.sampleRate n e.2 ((alFind e.1 acc).getD [])) acc

/-- All stored phases after rendering `n` frames. -/
noncomputable def advancePhases (st : InstrumentManager) (n : ℕ) :
    List (Int × List (Int × ℝ)) :=
  st.activeNotes.foldl (advanceInstrumentEntry st n) st.notePhases

/-- `InstrumentManager::renderAudio`.  Uninitialized: returns untouched.
Otherwise the first `2*n` samples are cleared; with no instruments or no
active notes the call returns with the cleared buffer; otherwise every
written sample is `tanh` of the mix and the stored phases advance. -/
noncomputable def renderAudio (st : InstrumentManager) (buffer : ℕ → ℝ)
    (numFrames : Int) (masterVolume : ℝ) : InstrumentManager × (ℕ → ℝ) :=
  if st.isInitialized = false then (st, buffer)
  else
    let n := clampFrames numFrames
    if st.instruments.isEmpty then
      (st, fun j => if j < 2 * n then 0 else buffer j)
    else if (st.activeNotes.any fun e => !e.2.isEmpty) = false then
      (st, fun j => if j < 2 * n then 0 else buffer j)
    else
      ({ st with notePhases := advancePhases st n },
       fun j => if j < 2 * n then Real.tanh (mixAt st masterVolume (j / 2)) else buffer j)

/-! ## Sequencer data model (`sequence_manager.h` / `.cpp`)

Beat times (`double startTime`, `duration`) are embedded as `ℚ`: the
playback paths only ever compare them. -/

/-- `struct Note` of the sequencer. -/
structure SeqNote where
  id : Int
  noteNumber : Int
  velocity : Int
  startTime : ℚ
  duration : ℚ

/-- `struct Track`. -/
structure Track where
  id : Int
  instrumentId : Int
  notes : List (Int × SeqNote)
  volume : ℚ

/-- `struct Sequence`. -/
structure Sequence where
  id : Int
  tempo : Int
  tracks : List (Int × Track)
  isPlaying : Bool

/-- The mutable state of `class SequenceManager` (minus the non-owning
`InstrumentManager*`, which the playback operations take explicitly). -/
structure SequenceManager where
  sequences : List (Int × Sequence)
  nextSequenceId : Int
  nextTrackId : Int
  nextNoteId : Int
  activeSequenceId : Int
  isPlaying : Bool

/-- `SequenceManager::stopPlayback` (`sequence_manager.cpp` lines 372–417),
as invoked from the top level (no lock held on entry, as from the FFI
layer): no-op success when not playing; otherwise sends `noteOff` for every
note registered on every track of the active sequence, clears its
`isPlaying` flag, and resets the transport. -/
def stopPlayback (sm : SequenceManager) (im : InstrumentManager) :
    Bool × SequenceManager × InstrumentManager :=
  if sm.isPlaying = false then (true, sm, im)
  else
    let step :=
      if sm.activeSequenceId ≥ 0 then
        match alFind sm.activeSequenceId sm.sequences with
        | none => (sm, im)
        | some seq =>
          let im' := seq.tracks.foldl
            (fun acc tp =>
              tp.2.notes.foldl
                (fun acc2 np => (sendNoteOff tp.2.instrumentId np.2.noteNumber acc2).2)
                acc)
            im
          ({ sm with sequences :=
              alUpdate sm.activeSequenceId { seq with isPlaying := false } sm.sequences },
           im')
      else (sm, im)
    (true, { step.1 with activeSequenceId := -1, isPlaying := false }, step.2)

/-- `SequenceManager::startPlayback` (lines 320–370).  The function holds
`m_mutex` for its whole scope (`std::lock_guard`, line 323); when a
sequence is already playing it calls `stopPlayback()` (line 334), which
re-locks the same non-recursive `std::mutex` (line 375) — that nested
acquisition blocks forever, so the call never returns.  The embedding
returns `none` for this self-deadlock.  On the paths that do complete:
an unknown sequence id returns `false` with nothing changed, and a known
id with the transport idle marks the sequence and the transport playing,
sets the active sequence id, and triggers `noteOn` for every note of every
track whose `startTime ≤ 0`. -/
def startPlayback (sequenceId : Int) (sm : SequenceManager)
    (im : InstrumentManager) :
    Option (Bool × SequenceManager × InstrumentManager) :=
  match alFind sequenceId sm.sequences with
  | none => some (false, sm, im)
  | some seq =>
    if sm.isPlaying then
      none  -- self-deadlock: stopPlayback() re-locks the held m_mutex
    else
      let sm2 : SequenceManager :=
        { sm with
          activeSequenceId := sequenceId
          sequences := alUpdate sequenceId { seq with isPlaying := true } sm.sequences
          isPlaying := true }
      let im2 := seq.tracks.foldl
        (fun acc tp =>
          tp.2.notes.foldl
            (fun acc2 np =>
              if np.2.startTime ≤ 0 then
                (sendNoteOn tp.2.instrumentId np.2.noteNumber np.2.velocity acc2).2
              else acc2)
            acc)
        im
      some (true, sm2, im2)

/-- The `(instrumentId, noteNumber, velocity)` triples of the notes a
transport start triggers: every note with `startTime ≤ 0` on every track,
in track-then-note order. -/
def zeroStartTriggers (tracks : List (Int × Track)) : List (Int × Int × Int) :=
  (tracks.map (fun tp =>
    (tp.2.notes.filter (fun np => np.2.startTime ≤ 0)).map
      (fun np => (tp.2.instrumentId, np.2.noteNumber, np.2.velocity)))).flatten

/-! ## Further association-list facts -/

theorem mem_alUpdate {β : Type} {k : Int} {v : β} {l : List (Int × β)}
    {p : Int × β} (h : p ∈ alUpdate k v l) : p ∈ l ∨ p = (k, v) := by
  induction l with
  | nil => simp [alUpdate] at h; simp [h]
  | cons q t ih =>
    obtain ⟨a, b⟩ := q
    by_cases ha : a = k
    · simp [alUpdate, ha] at h
      rcases h with h | h
      · exact Or.inr h
      · exact Or.inl (List.mem_cons_of_mem _ h)
    · simp [alUpdate, ha] at h
      rcases h with h | h
      · exact Or.inl (by simp [h])
      · rcases ih h with h' | h'
        · exact Or.inl (List.mem_cons_of_mem _ h')
        · exact Or.inr h'

theorem alFind_mem {β : Type} {k : Int} {l : List (Int × β)} {v : β}
    (h : alFind k l = some v) : (k, v) ∈ l := by
  induction l with
  | nil => simp [alFind] at h
  | cons q t ih =>
    obtain ⟨a, b⟩ := q
    by_cases ha : a = k
    · subst ha
      simp [alFind] at h
      simp [h]
    · simp [alFind, ha] at h
      exact List.mem_cons_of_mem _ (ih h)

theorem mem_setInsert {n m : Int} {s : List Int} (h : m ∈ setInsert n s) :
    m ∈ s ∨ m = n := by
  unfold setInsert at h
  by_cases hn : n ∈ s
  · simp [hn] at h
    exact Or.inl h
  · simp [hn] at h
    exact h

theorem mem_setInsert_self (n : Int) (s : List Int) : n ∈ setInsert n s := by
  unfold setInsert
  by_cases hn : n ∈ s <;> simp [hn]

theorem foldl_preserves {α β : Type} {P : α → Prop} (f : α → β → α) (l : List β)
    (h : ∀ a b, P a → b ∈ l → P (f a b)) {init : α} (hi : P init) :
    P (l.foldl f init) := by
  induction l generalizing init with
  | nil => simpa using hi
  | cons b t ih =>
    simp only [List.foldl_cons]
    exact ih (fun a c ha hc => h a c ha (List.mem_cons_of_mem _ hc))
      (h init b hi (List.mem_cons_self _ _))

/-! ## Concrete states used as inputs -/

/-- A manager holding exactly 32 loaded instruments (ids 0–31), i.e. at the
`MAX_INSTRUMENTS = 32` cap of `instrument_manager.cpp`. -/
def capManager : InstrumentManager :=
  { isInitialized := true, sampleRate := 44100, nextId := 32,
    instruments := (List.range 32).map fun i => ((i : Int), sineInstrument "inst"),
    activeNotes := (List.range 32).map fun i => ((i : Int), []),
    noteVelocities := (List.range 32).map fun i => ((i : Int), []),
    notePhases := (List.range 32).map fun i => ((i : Int), []) }

/-- The manager after `init()` at 44100 Hz and one `createSineWaveInstrument`
call: instrument 1 plus the auto-created default instrument 0. -/
def oneInstrument : InstrumentManager :=
  (createSineWaveInstrument "lead" (initialManager 44100)).2

/-! ## C1 -/

/-- C1, counterexample: with the instrument count already at the cap of 32,
`createSineWaveInstrument` does not fail with -1 — it returns a fresh id
and adds a 33rd instrument.  The claimed capacity rejection does not exist
in the code (`MAX_INSTRUMENTS` is defined but never read). -/
theorem c1_at_capacity_create_still_succeeds :
    capManager.instruments.length = 32 ∧
    (createSineWaveInstrument "extra" capManager).1 ≠ -1 ∧
    (createSineWaveInstrument "extra" capManager).2.instruments.length = 33 := by
  refine ⟨by decide, by decide, by decide⟩

/-- C1 (amended): `createSineWaveInstrument` performs no capacity check at
all: from every state whose id counter is nonnegative (it starts at 1 and
only increments) — in particular with 32 or more instruments loaded — the
call succeeds, returns the fresh id `nextId` (never -1), stores a sine
instrument with volume 1.0 under that id, and creates empty active-note,
velocity and phase entries for it. -/
theorem c1_create_never_hits_capacity (st : InstrumentManager) (name : String)
    (h : 0 ≤ st.nextId) :
    (createSineWaveInstrument name st).1 ≠ -1 ∧
    (createSineWaveInstrument name st).1 = st.nextId ∧
    alFind st.nextId (createSineWaveInstrument name st).2.instruments
      = some (sineInstrument name) ∧
    alFind st.nextId (createSineWaveInstrument name st).2.activeNotes = some [] ∧
    alFind st.nextId (createSineWaveInstrument name st).2.noteVelocities = some [] ∧
    alFind st.nextId (createSineWaveInstrument name st).2.notePhases = some [] := by
  unfold createSineWaveInstrument
  by_cases hc : st.nextId ≠ 0 ∧
      (alFind 0 (alUpdate st.nextId (sineInstrument name) st.instruments)).isNone = true
  · rw [if_pos hc]
    have hne : (0 : Int) ≠ st.nextId := fun h0 => hc.1 h0.symm
    exact ⟨show st.nextId ≠ -1 by omega, rfl,
      (alFind_alUpdate_ne _ _ hne).trans (alFind_alUpdate_self _ _ _),
      (alFind_alUpdate_ne _ _ hne).trans (alFind_alUpdate_self _ _ _),
      (alFind_alUpdate_ne _ _ hne).trans (alFind_alUpdate_self _ _ _),
      (alFind_alUpdate_ne _ _ hne).trans (alFind_alUpdate_self _ _ _)⟩
  · rw [if_neg hc]
    exact ⟨show st.nextId ≠ -1 by omega, rfl, alFind_alUpdate_self _ _ _,
      alFind_alUpdate_self _ _ _, alFind_alUpdate_self _ _ _, alFind_alUpdate_self _ _ _⟩

/-- Witness for the amended C1 at the freshly initialized manager. -/
theorem c1_create_never_hits_capacity_witness :
    (createSineWaveInstrument "lead" (initialManager 44100)).1 ≠ -1 ∧
    (createSineWaveInstrument "lead" (initialManager 44100)).1
      = (initialManager 44100).nextId ∧
    alFind (initialManager 44100).nextId
        (createSineWaveInstrument "lead" (initialManager 44100)).2.instruments
      = some (sineInstrument "lead") ∧
    alFind (initialManager 44100).nextId
        (createSineWaveInstrument "lead" (initialManager 44100)).2.activeNotes = some [] ∧
    alFind (initialManager 44100).nextId
        (createSineWaveInstrument "lead" (initialManager 44100)).2.noteVelocities = some [] ∧
    alFind (initialManager 44100).nextId
        (createSineWaveInstrument "lead" (initialManager 44100)).2.notePhases = some [] :=
  c1_create_never_hits_capacity (initialManager 44100) "lead" (by decide)

/-! ## C2 -/

/-- C2, counterexample: `sendNoteOn` with velocity 0 — outside the claimed
storage range `[1,127]` — succeeds and stores the velocity 0 verbatim, so a
stored velocity *can* be out of `[1,127]`; nothing is clamped. -/
theorem c2_velocity_zero_stored_unclamped :
    (sendNoteOn 1 60 0 oneInstrument).1 = true ∧
    velocityEntry (sendNoteOn 1 60 0 oneInstrument).2 1 60 = some 0 ∧
    ¬ (1 ≤ (0 : Int)) := by
  refine ⟨by decide, by decide, by decide⟩

/-- C2 (amended): for a loaded sine instrument, `sendNoteOn` rejects (with
`false` and an unchanged state) a velocity outside `[0,127]` instead of
clamping, and stores an in-range velocity verbatim — so a stored velocity
lies in `[0,127]`, not `[1,127]`; a note outside `[0,127]` is likewise
rejected with no state change. -/
theorem c2_velocity_validated_not_clamped (st : InstrumentManager)
    (id note vel : Int) {inst : Instrument}
    (hinst : alFind id st.instruments = some inst)
    (htype : inst.type = InstrumentType.SINE_WAVE) :
    (note < 0 ∨ 127 < note → sendNoteOn id note vel st = (false, st)) ∧
    (vel < 0 ∨ 127 < vel → sendNoteOn id note vel st = (false, st)) ∧
    (0 ≤ note → note ≤ 127 → 0 ≤ vel → vel ≤ 127 →
      (sendNoteOn id note vel st).1 = true ∧
      velocityEntry (sendNoteOn id note vel st).2 id note = some vel) := by
  unfold sendNoteOn
  simp only [hinst, Option.isSome_some, if_true]
  refine ⟨?_, ?_, ?_⟩
  · intro h
    rw [if_pos h]
  · intro h
    by_cases hn : note < 0 ∨ note > 127
    · rw [if_pos hn]
    · rw [if_neg hn, if_pos h]
  · intro h1 h2 h3 h4
    rw [if_neg (by omega), if_neg (by omega), htype]
    exact ⟨rfl, by simp [velocityEntry, alFind_alUpdate_self]⟩

/-- Witness for the amended C2: a valid call stores its velocity verbatim. -/
theorem c2_velocity_validated_not_clamped_witness :
    (sendNoteOn 1 60 100 oneInstrument).1 = true ∧
    velocityEntry (sendNoteOn 1 60 100 oneInstrument).2 1 60 = some 100 :=
  (c2_velocity_validated_not_clamped oneInstrument 1 60 100 rfl rfl).2.2
    (by decide) (by decide) (by decide) (by decide)

/-! ## C6 -/

/-- C6: when `sendNoteOn` is called with an unknown instrument id and valid
note/velocity, it silently falls back to the default instrument 0 when one
is loaded (activating the note there and returning `true`); with no
instrument 0 it fails with `false` and an unchanged state. -/
theorem c6_unknown_id_falls_back (st : InstrumentManager) (id note vel : Int)
    (hid : alFind id st.instruments = none)
    (hn0 : 0 ≤ note) (hn1 : note ≤ 127) (hv0 : 0 ≤ vel) (hv1 : vel ≤ 127) :
    (∀ inst0, alFind 0 st.instruments = some inst0 →
      inst0.type = InstrumentType.SINE_WAVE →
      (sendNoteOn id note vel st).1 = true ∧
      note ∈ activeOf (sendNoteOn id note vel st).2 0) ∧
    (alFind 0 st.instruments = none → sendNoteOn id note vel st = (false, st)) := by
  unfold sendNoteOn
  simp only [hid, Option.isSome_none, Bool.false_eq_true, if_false]
  constructor
  · intro inst0 h0 ht
    simp only [h0, Option.isSome_some, if_true]
    rw [if_neg (by omega), if_neg (by omega), ht]
    exact ⟨rfl, by simp [activeOf, alFind_alUpdate_self, mem_setInsert_self]⟩
  · intro h0
    simp only [h0, Option.isSome_none, Bool.false_eq_true, if_false]

/-- Witness for C6: with instruments 0 and 1 loaded, a `noteOn` addressed
to the unknown id 5 lands on instrument 0. -/
theorem c6_unknown_id_falls_back_witness :
    (sendNoteOn 5 60 100 oneInstrument).1 = true ∧
    60 ∈ activeOf (sendNoteOn 5 60 100 oneInstrument).2 0 :=
  (c6_unknown_id_falls_back oneInstrument 5 60 100 rfl (by decide) (by decide)
    (by decide) (by decide)).1 (sineInstrument "Default Sine Wave") rfl rfl

/-! ## C10 -/

/-- C10: every successful `createSineWaveInstrument` call leaves an
instrument with id 0 loaded — when the generated id is nonzero and id 0 was
absent, the reserved "Default Sine Wave" instrument is created with empty
note state as a side effect — and `unloadInstrument 0` removes it again. -/
theorem c10_default_instrument_exists (st : InstrumentManager) (name : String) :
    (alFind 0 (createSineWaveInstrument name st).2.instruments).isSome = true ∧
    (st.nextId ≠ 0 → alFind 0 st.instruments = none →
      alFind 0 (createSineWaveInstrument name st).2.instruments
          = some (sineInstrument "Default Sine Wave") ∧
      alFind 0 (createSineWaveInstrument name st).2.activeNotes = some [] ∧
      alFind 0 (createSineWaveInstrument name st).2.noteVelocities = some [] ∧
      alFind 0 (createSineWaveInstrument name st).2.notePhases = some []) ∧
    alFind 0 (unloadInstrument 0 (createSineWaveInstrument name st).2).2.instruments
      = none := by
  have h1 : (alFind 0 (createSineWaveInstrument name st).2.instruments).isSome = true := by
    unfold createSineWaveInstrument
    by_cases hc : st.nextId ≠ 0 ∧
        (alFind 0 (alUpdate st.nextId (sineInstrument name) st.instruments)).isNone = true
    · rw [if_pos hc]
      show (alFind 0 (alUpdate 0 (sineInstrument "Default Sine Wave") _)).isSome = true
      rw [alFind_alUpdate_self]
      rfl
    · rw [if_neg hc]
      push_neg at hc
      show (alFind 0 (alUpdate st.nextId (sineInstrument name) st.instruments)).isSome = true
      by_cases h0 : st.nextId = 0
      · rw [h0, alFind_alUpdate_self]
        rfl
      · have hne := hc h0
        cases hfind : alFind 0 (alUpdate st.nextId (sineInstrument name) st.instruments) with
        | none => exact absurd (by rw [hfind]; rfl) hne
        | some v => rfl
  refine ⟨h1, ?_, ?_⟩
  · intro h0 habs
    have hn : alFind 0 (alUpdate st.nextId (sineInstrument name) st.instruments) = none := by
      rw [alFind_alUpdate_ne _ _ h0]
      exact habs
    unfold createSineWaveInstrument
    rw [if_pos ⟨h0, by rw [hn]; rfl⟩]
    exact ⟨alFind_alUpdate_self _ _ _, alFind_alUpdate_self _ _ _,
      alFind_alUpdate_self _ _ _, alFind_alUpdate_self _ _ _⟩
  · unfold unloadInstrument
    obtain ⟨v, hv⟩ := Option.isSome_iff_exists.mp h1
    rw [hv]
    exact alFind_alErase_self _ _

/-- Witness for C10 at the freshly initialized manager. -/
theorem c10_default_instrument_exists_witness :
    alFind 0 (createSineWaveInstrument "lead" (initialManager 44100)).2.instruments
      = some (sineInstrument "Default Sine Wave") :=
  ((c10_default_instrument_exists (initialManager 44100) "lead").2.1
    (by decide) rfl).1

/-! ## C5 -/

theorem sendNoteOn_instruments (id note vel : Int) (st : InstrumentManager) :
    (sendNoteOn id note vel st).2.instruments = st.instruments := by
  unfold sendNoteOn
  repeat' split
  all_goals rfl

theorem sendNoteOn_isInitialized (id note vel : Int) (st : InstrumentManager) :
    (sendNoteOn id note vel st).2.isInitialized = st.isInitialized := by
  unfold sendNoteOn
  repeat' split
  all_goals rfl

theorem noteOffActive_instruments (id note : Int) (st : InstrumentManager) :
    (noteOffActive id note st).instruments = st.instruments := by
  unfold noteOffActive
  repeat' split
  all_goals rfl

theorem noteOffActive_isInitialized (id note : Int) (st : InstrumentManager) :
    (noteOffActive id note st).isInitialized = st.isInitialized := by
  unfold noteOffActive
  repeat' split
  all_goals rfl

theorem noteOffActive_noteVelocities (id note : Int) (st : InstrumentManager) :
    (noteOffActive id note st).noteVelocities = st.noteVelocities := by
  unfold noteOffActive
  repeat' split
  all_goals rfl

theorem noteOffActive_notePhases (id note : Int) (st : InstrumentManager) :
    (noteOffActive id note st).notePhases = st.notePhases := by
  unfold noteOffActive
  repeat' split
  all_goals rfl

theorem noteOffVels_instruments (id note : Int) (st : InstrumentManager) :
    (noteOffVels id note st).instruments = st.instruments := by
  unfold noteOffVels
  repeat' split
  all_goals rfl

theorem noteOffVels_isInitialized (id note : Int) (st : InstrumentManager) :
    (noteOffVels id note st).isInitialized = st.isInitialized := by
  unfold noteOffVels
  repeat' split
  all_goals rfl

theorem noteOffVels_activeNotes (id note : Int) (st : InstrumentManager) :
    (noteOffVels id note st).activeNotes = st.activeNotes := by
  unfold noteOffVels
  repeat' split
  all_goals rfl

theorem noteOffVels_notePhases (id note : Int) (st : InstrumentManager) :
    (noteOffVels id note st).notePhases = st.notePhases := by
  unfold noteOffVels
  repeat' split
  all_goals rfl

theorem sendNoteOff_instruments (id note : Int) (st : InstrumentManager) :
    (sendNoteOff id note st).2.instruments = st.instruments := by
  unfold sendNoteOff
  repeat' split
  all_goals simp [noteOffVels_instruments, noteOffActive_instruments]

theorem sendNoteOff_isInitialized (id note : Int) (st : InstrumentManager) :
    (sendNoteOff id note st).2.isInitialized = st.isInitialized := by
  unfold sendNoteOff
  repeat' split
  all_goals simp [noteOffVels_isInitialized, noteOffActive_isInitialized]

theorem sendNoteOff_notePhases (id note : Int) (st : InstrumentManager) :
    (sendNoteOff id note st).2.notePhases = st.notePhases := by
  unfold sendNoteOff
  repeat' split
  all_goals simp [noteOffVels_notePhases, noteOffActive_notePhases]

/-- The configurations of the per-instrument note containers from which a
repeated `sendNoteOff` can make no further change: the active-note entry is
gone or a nonempty set without the note, and likewise for the velocities. -/
def offClean (st : InstrumentManager) (id note : Int) : Prop :=
  (alFind id st.activeNotes = none ∨
    ∃ notes, alFind id st.activeNotes = some notes ∧ note ∉ notes ∧ notes ≠ []) ∧
  (alFind id st.noteVelocities = none ∨
    ∃ vels, alFind id st.noteVelocities = some vels ∧ alFind note vels = none ∧ vels ≠ [])

theorem noteOffActive_clean (id note : Int) (st : InstrumentManager) :
    alFind id (noteOffActive id note st).activeNotes = none ∨
    ∃ notes, alFind id (noteOffActive id note st).activeNotes = some notes ∧
      note ∉ notes ∧ notes ≠ [] := by
  unfold noteOffActive
  cases hact : alFind id st.activeNotes with
  | none => exact Or.inl hact
  | some notes =>
    dsimp only
    by_cases he : (notes.filter fun m => m ≠ note).isEmpty
    · rw [if_pos he]
      exact Or.inl (alFind_alErase_self _ _)
    · rw [if_neg he]
      refine Or.inr ⟨_, alFind_alUpdate_self _ _ _, ?_, ?_⟩
      · simp [List.mem_filter]
      · intro h0
        rw [h0] at he
        exact he rfl

theorem noteOffVels_clean (id note : Int) (st : InstrumentManager) :
    alFind id (noteOffVels id note st).noteVelocities = none ∨
    ∃ vels, alFind id (noteOffVels id note st).noteVelocities = some vels ∧
      alFind note vels = none ∧ vels ≠ [] := by
  unfold noteOffVels
  cases hvel : alFind id st.noteVelocities with
  | none => exact Or.inl hvel
  | some vels =>
    dsimp only
    by_cases he : (alErase note vels).isEmpty
    · rw [if_pos he]
      exact Or.inl (alFind_alErase_self _ _)
    · rw [if_neg he]
      refine Or.inr ⟨_, alFind_alUpdate_self _ _ _, alFind_alErase_self _ _, ?_⟩
      intro h0
      rw [h0] at he
      exact he rfl

theorem noteOffActive_noop {id note : Int} {st : InstrumentManager}
    (h : alFind id st.activeNotes = none ∨
      ∃ notes, alFind id st.activeNotes = some notes ∧ note ∉ notes ∧ notes ≠ []) :
    noteOffActive id note st = st := by
  unfold noteOffActive
  rcases h with h | ⟨notes, hsome, hnot, hne⟩
  · rw [h]
  · rw [hsome]
    dsimp only
    have hfilter : (notes.filter fun m => m ≠ note) = notes :=
      List.filter_eq_self.mpr fun a ha => by
        simp only [decide_eq_true_eq]
        intro h0
        exact hnot (h0 ▸ ha)
    have hie : notes.isEmpty = false := by
      cases notes with
      | nil => exact absurd rfl hne
      | cons a t => rfl
    rw [hfilter, hie]
    simp only [Bool.false_eq_true, if_false]
    rw [alUpdate_self hsome]

theorem noteOffVels_noop {id note : Int} {st : InstrumentManager}
    (h : alFind id st.noteVelocities = none ∨
      ∃ vels, alFind id st.noteVelocities = some vels ∧
        alFind note vels = none ∧ vels ≠ []) :
    noteOffVels id note st = st := by
  unfold noteOffVels
  rcases h with h | ⟨vels, hsome, hnone, hne⟩
  · rw [h]
  · rw [hsome]
    dsimp only
    have herase : alErase note vels = vels := alErase_of_alFind_none hnone
    have hie : vels.isEmpty = false := by
      cases vels with
      | nil => exact absurd rfl hne
      | cons a t => rfl
    rw [herase, hie]
    simp only [Bool.false_eq_true, if_false]
    rw [alUpdate_self hsome]

theorem sendNoteOff_clean (st : InstrumentManager) (id note : Int) {inst : Instrument}
    (hinit : st.isInitialized = true) (hn : 0 ≤ note) (hn' : note < 128)
    (hinst : alFind id st.instruments = some inst) :
    (sendNoteOff id note st).1 = true ∧ offClean (sendNoteOff id note st).2 id note := by
  unfold sendNoteOff
  rw [if_neg (by simp [hinit]), if_neg (by omega), hinst]
  refine ⟨rfl, ?_, ?_⟩
  · have h := noteOffActive_clean id note st
    rwa [← noteOffVels_activeNotes id note (noteOffActive id note st)] at h
  · exact noteOffVels_clean id note _

theorem sendNoteOff_noop_of_clean (st : InstrumentManager) (id note : Int)
    {inst : Instrument} (hinit : st.isInitialized = true)
    (hn : 0 ≤ note) (hn' : note < 128)
    (hinst : alFind id st.instruments = some inst)
    (hclean : offClean st id note) :
    sendNoteOff id note st = (true, st) := by
  obtain ⟨hA, hV⟩ := hclean
  unfold sendNoteOff
  rw [if_neg (by simp [hinit]), if_neg (by omega), hinst,
    noteOffActive_noop hA, noteOffVels_noop hV]

/-- C5: for a loaded instrument (with the manager initialized) and a note
in `[0,127]`, after `sendNoteOn` then `sendNoteOff` the note is no longer
in the active set, and a further `sendNoteOff` is idempotent — it still
returns `true` and leaves the registry state unchanged. -/
theorem c5_note_off_removes_and_idempotent (st : InstrumentManager)
    (id note vel : Int) {inst : Instrument}
    (hinit : st.isInitialized = true)
    (hinst : alFind id st.instruments = some inst)
    (hn : 0 ≤ note) (hn' : note ≤ 127) :
    note ∉ activeOf (sendNoteOff id note (sendNoteOn id note vel st).2).2 id ∧
    (sendNoteOff id note (sendNoteOn id note vel st).2).1 = true ∧
    sendNoteOff id note (sendNoteOff id note (sendNoteOn id note vel st).2).2
      = (true, (sendNoteOff id note (sendNoteOn id note vel st).2).2) := by
  have hiOn : alFind id (sendNoteOn id note vel st).2.instruments = some inst := by
    rw [sendNoteOn_instruments]; exact hinst
  have hinitOn : (sendNoteOn id note vel st).2.isInitialized = true := by
    rw [sendNoteOn_isInitialized]; exact hinit
  obtain ⟨hres, hclean⟩ :=
    sendNoteOff_clean (sendNoteOn id note vel st).2 id note hinitOn hn (by omega) hiOn
  have hiOff : alFind id (sendNoteOff id note (sendNoteOn id note vel st).2).2.instruments
      = some inst := by
    rw [sendNoteOff_instruments]; exact hiOn
  have hinitOff :
      (sendNoteOff id note (sendNoteOn id note vel st).2).2.isInitialized = true := by
    rw [sendNoteOff_isInitialized]; exact hinitOn
  refine ⟨?_, hres,
    sendNoteOff_noop_of_clean _ id note hinitOff hn (by omega) hiOff hclean⟩
  rcases hclean.1 with h | ⟨notes, hsome, hnot, _⟩
  · simp [activeOf, h]
  · simpa [activeOf, hsome] using hnot

/-- Witness for C5: note 60 on instrument 1. -/
theorem c5_note_off_removes_and_idempotent_witness :
    60 ∉ activeOf (sendNoteOff 1 60 (sendNoteOn 1 60 100 oneInstrument).2).2 1 ∧
    (sendNoteOff 1 60 (sendNoteOn 1 60 100 oneInstrument).2).1 = true ∧
    sendNoteOff 1 60 (sendNoteOff 1 60 (sendNoteOn 1 60 100 oneInstrument).2).2
      = (true, (sendNoteOff 1 60 (sendNoteOn 1 60 100 oneInstrument).2).2) :=
  c5_note_off_removes_and_idempotent oneInstrument 1 60 100 rfl rfl
    (by decide) (by decide)

/-! ## C3 -/

/-- An `InstrumentManager` before `init()` has run. -/
def uninitManager : InstrumentManager :=
  { isInitialized := false, sampleRate := 44100, nextId := 1,
    instruments := [], activeNotes := [], noteVelocities := [], notePhases := [] }

/-- C3, counterexample: a `renderAudio` call on an uninitialized manager
returns before the zeroing loop, so the output buffer keeps its previous
(nonzero) contents — the buffer is not zeroed at the start of *every*
call. -/
theorem c3_uninitialized_render_skips_zeroing :
    (renderAudio uninitManager (fun _ => 1) 4 1).2 0 = 1 ∧ (1 : ℝ) ≠ 0 := by
  constructor
  · rfl
  · norm_num

/-- C3 (amended): in every call on an *initialized* manager the first
`2*frames` samples are rewritten from a zeroed basis — the output is
independent of the buffer's prior contents, and is identically zero
whenever no instrument or no active note exists; an uninitialized call (or
a null buffer) returns with the buffer untouched.  The embedding of the
render path is total, so no mid-render fault can arise inside it; the C++
`catch` clauses merely return. -/
theorem c3_render_from_zeroed_buffer (st : InstrumentManager) (buf buf' : ℕ → ℝ)
    (numFrames : Int) (mv : ℝ) :
    (st.isInitialized = true →
      ∀ j, j < 2 * clampFrames numFrames →
        (renderAudio st buf numFrames mv).2 j = (renderAudio st buf' numFrames mv).2 j) ∧
    (st.isInitialized = true →
      (st.activeNotes.any fun e => !e.2.isEmpty) = false →
      ∀ j, j < 2 * clampFrames numFrames →
        (renderAudio st buf numFrames mv).2 j = 0) ∧
    (st.isInitialized = false → (renderAudio st buf numFrames mv).2 = buf) := by
  unfold renderAudio
  refine ⟨?_, ?_, ?_⟩
  · intro hinit j hj
    simp only [hinit, Bool.true_eq_false, if_false]
    cases hemp : st.instruments.isEmpty with
    | true => simp [hj]
    | false =>
      cases hact : st.activeNotes.any fun e => !e.2.isEmpty with
      | false => simp [hj]
      | true => simp [hj]
  · intro hinit hact j hj
    simp only [hinit, Bool.true_eq_false, if_false]
    cases hemp : st.instruments.isEmpty with
    | true => simp [hj]
    | false => simp [hact, hj]
  · intro hinit
    simp [hinit]

/-- Witness for the amended C3: on a fresh initialized manager with no
active notes the rendered samples are zero. -/
theorem c3_render_from_zeroed_buffer_witness :
    (renderAudio oneInstrument (fun _ => 1) 4 1).2 0 = 0 :=
  (c3_render_from_zeroed_buffer oneInstrument (fun _ => 1) (fun _ => 2) 4 1).2.1
    rfl rfl 0 (by decide)

/-! ## C4 -/

/-- `tanh` maps every real into `[-1, 1]`. -/
theorem tanh_mem_Icc (x : ℝ) : -1 ≤ Real.tanh x ∧ Real.tanh x ≤ 1 := by
  have hc := Real.cosh_pos x
  have h1 : Real.sinh x < Real.cosh x := Real.sinh_lt_cosh x
  have h2 : -Real.cosh x < Real.sinh x := by
    have h := Real.sinh_lt_cosh (-x)
    rw [Real.sinh_neg, Real.cosh_neg] at h
    linarith
  rw [Real.tanh_eq_sinh_div_cosh]
  constructor
  · rw [le_div_iff₀ hc]
    linarith
  · rw [div_le_one hc]
    linarith

/-- C4: on an initialized manager, every sample `renderAudio` writes into
the output buffer lies in `[-1, 1]`, for every registry state, note set,
master volume and frame count: the early-out paths write zeros and the
synthesis path applies the `tanh` soft limiter to every written sample of
both stereo channels after mixing. -/
theorem c4_render_output_bounded (st : InstrumentManager) (buf : ℕ → ℝ)
    (numFrames : Int) (mv : ℝ) (hinit : st.isInitialized = true) :
    ∀ j, j < 2 * clampFrames numFrames →
      -1 ≤ (renderAudio st buf numFrames mv).2 j ∧
      (renderAudio st buf numFrames mv).2 j ≤ 1 := by
  intro j hj
  unfold renderAudio
  simp only [hinit, Bool.true_eq_false, if_false]
  cases hemp : st.instruments.isEmpty with
  | true => norm_num [hj]
  | false =>
    cases hact : st.activeNotes.any fun e => !e.2.isEmpty with
    | false => norm_num [hj]
    | true =>
      show -1 ≤ (if j < 2 * clampFrames numFrames then
            Real.tanh (mixAt st mv (j / 2)) else buf j) ∧
          (if j < 2 * clampFrames numFrames then
            Real.tanh (mixAt st mv (j / 2)) else buf j) ≤ 1
      rw [if_pos hj]
      exact tanh_mem_Icc _

/-- Witness for C4 at a concrete render call. -/
theorem c4_render_output_bounded_witness :
    -1 ≤ (renderAudio oneInstrument (fun _ => 0) 512 1).2 0 ∧
    (renderAudio oneInstrument (fun _ => 0) 512 1).2 0 ≤ 1 :=
  c4_render_output_bounded oneInstrument (fun _ => 0) 512 1 rfl 0 (by decide)

/-! ## C7: frequency and phase-step bounds -/

theorem twoPi_pos : 0 < twoPi := by
  unfold twoPi
  have := Real.pi_pos
  linarith

theorem midiNoteToFrequency_pos (note : Int) : 0 < midiNoteToFrequency note := by
  unfold midiNoteToFrequency
  positivity

/-- The highest MIDI note, 127, has frequency at most 14080 Hz
(`440·2^(58/12) ≤ 440·2^5`). -/
theorem midiNoteToFrequency_le {note : Int} (h : note ≤ 127) :
    midiNoteToFrequency note ≤ 14080 := by
  unfold midiNoteToFrequency
  have hexp : ((note : ℝ) - 69) / 12 ≤ 5 := by
    have : (note : ℝ) ≤ 127 := by exact_mod_cast h
    linarith
  have h5 : (2 : ℝ) ^ (((note : ℝ) - 69) / 12) ≤ (2 : ℝ) ^ (5 : ℝ) :=
    Real.rpow_le_rpow_of_exponent_le (by norm_num) hexp
  have h32 : (2 : ℝ) ^ (5 : ℝ) = 32 := by
    rw [show (5 : ℝ) = ((5 : ℕ) : ℝ) by norm_num, Real.rpow_natCast]
    norm_num
  rw [h32] at h5
  linarith

/-- The frequency of note 127 is at least 12000 Hz
(`2^(29/6) ≥ 300/11` since `2^29 ≥ (300/11)^6`). -/
theorem midiNoteToFrequency_127_ge : (12000 : ℝ) ≤ midiNoteToFrequency 127 := by
  unfold midiNoteToFrequency
  have hexp : (((127 : Int) : ℝ) - 69) / 12 = (29 : ℝ) / 6 := by
    push_cast
    norm_num
  rw [hexp]
  have hpow : ((2 : ℝ) ^ ((29 : ℝ) / 6)) ^ (6 : ℕ) = 2 ^ (29 : ℕ) := by
    rw [← Real.rpow_natCast ((2 : ℝ) ^ ((29 : ℝ) / 6)) 6,
      ← Real.rpow_mul (by norm_num : (0 : ℝ) ≤ 2),
      show (29 : ℝ) / 6 * ((6 : ℕ) : ℝ) = ((29 : ℕ) : ℝ) by push_cast; ring,
      Real.rpow_natCast]
  have h6 : ((300 : ℝ) / 11) ^ (6 : ℕ) ≤ ((2 : ℝ) ^ ((29 : ℝ) / 6)) ^ (6 : ℕ) := by
    rw [hpow]
    norm_num
  have hkey : (300 : ℝ) / 11 ≤ (2 : ℝ) ^ ((29 : ℝ) / 6) :=
    le_of_pow_le_pow_left₀ (by norm_num) (Real.rpow_nonneg (by norm_num) _) h6
  nlinarith

theorem noteIncrement_nonneg {sr : Int} (hsr : 0 < sr) (note : Int) :
    0 ≤ noteIncrement sr note := by
  unfold noteIncrement
  have h1 := midiNoteToFrequency_pos note
  have h2 : (0 : ℝ) < (sr : ℝ) := by exact_mod_cast hsr
  have h3 := twoPi_pos
  positivity

theorem noteIncrement_le_twoPi {sr note : Int} (hsr : 14080 ≤ sr) (hnote : note ≤ 127) :
    noteIncrement sr note ≤ twoPi := by
  unfold noteIncrement
  have hf := midiNoteToFrequency_le hnote
  have hsr' : (14080 : ℝ) ≤ (sr : ℝ) := by exact_mod_cast hsr
  have hsp : (0 : ℝ) < (sr : ℝ) := by linarith
  rw [div_le_iff₀ hsp]
  have hfs : midiNoteToFrequency note ≤ (sr : ℝ) := by linarith
  exact mul_le_mul_of_nonneg_left hfs twoPi_pos.le

theorem phaseStep_mem {inc p : ℝ} (hi0 : 0 ≤ inc) (hi1 : inc ≤ twoPi)
    (hp0 : 0 ≤ p) (hp1 : p < twoPi) :
    0 ≤ phaseStep inc p ∧ phaseStep inc p < twoPi := by
  unfold phaseStep
  by_cases h : p + inc ≥ twoPi
  · rw [if_pos h]
    constructor <;> linarith
  · rw [if_neg h]
    constructor <;> linarith

theorem phaseAdvance_mem {inc : ℝ} (hi0 : 0 ≤ inc) (hi1 : inc ≤ twoPi) (n : ℕ) :
    ∀ {p : ℝ}, 0 ≤ p → p < twoPi →
      0 ≤ phaseAdvance inc n p ∧ phaseAdvance inc n p < twoPi := by
  induction n with
  | zero =>
    intro p h0 h1
    exact ⟨h0, h1⟩
  | succ n ih =>
    intro p h0 h1
    have hs := phaseStep_mem hi0 hi1 h0 h1
    exact ih hs.1 hs.2

/-! ## C7: the range invariants -/

/-- Every note stored in an active-note set is a MIDI note in `[0,127]`. -/
def notesInRange (st : InstrumentManager) : Prop :=
  ∀ p ∈ st.activeNotes, ∀ n ∈ p.2, 0 ≤ n ∧ n ≤ 127

/-- All phases of one per-instrument phase map lie in `[0, 2π)`. -/
def phaseListOK (pm : List (Int × ℝ)) : Prop :=
  ∀ q ∈ pm, 0 ≤ q.2 ∧ q.2 < twoPi

/-- Every stored phase lies in `[0, 2π)`. -/
def phasesInRange (st : InstrumentManager) : Prop :=
  ∀ p ∈ st.notePhases, phaseListOK p.2

theorem mem_alErase {β : Type} {k : Int} {l : List (Int × β)} {p : Int × β}
    (h : p ∈ alErase k l) : p ∈ l :=
  (List.mem_filter.mp h).1

theorem phaseListOK_nil : phaseListOK [] := by
  intro q hq
  simp at hq

theorem phaseListOK_alUpdate {pm : List (Int × ℝ)} {k : Int} {x : ℝ}
    (h : phaseListOK pm) (hx : 0 ≤ x ∧ x < twoPi) :
    phaseListOK (alUpdate k x pm) := by
  intro q hq
  rcases mem_alUpdate hq with hq' | hq'
  · exact h q hq'
  · rw [hq']
    exact hx

theorem phaseListOK_getD {pm : List (Int × ℝ)} (h : phaseListOK pm) (k : Int) :
    0 ≤ (alFind k pm).getD 0 ∧ (alFind k pm).getD 0 < twoPi := by
  cases hf : alFind k pm with
  | none =>
    constructor
    · simp
    · simpa using twoPi_pos
  | some x => simpa using h _ (alFind_mem hf)

theorem phasesOK_alUpdate {l : List (Int × List (Int × ℝ))} {k : Int}
    {v : List (Int × ℝ)} (hl : ∀ p ∈ l, phaseListOK p.2) (hv : phaseListOK v) :
    ∀ p ∈ alUpdate k v l, phaseListOK p.2 := by
  intro p hp
  rcases mem_alUpdate hp with h | h
  · exact hl p h
  · rw [h]
    exact hv

theorem notesOK_alUpdate {l : List (Int × List Int)} {k : Int} {v : List Int}
    (hl : ∀ p ∈ l, ∀ n ∈ p.2, 0 ≤ n ∧ n ≤ 127)
    (hv : ∀ n ∈ v, 0 ≤ n ∧ n ≤ 127) :
    ∀ p ∈ alUpdate k v l, ∀ n ∈ p.2, 0 ≤ n ∧ n ≤ 127 := by
  intro p hp
  rcases mem_alUpdate hp with h | h
  · exact hl p h
  · intro n hn
    rw [h] at hn
    exact hv n hn

theorem notesInRange_activeOf {st : InstrumentManager} (hN : notesInRange st)
    (iid : Int) : ∀ n ∈ activeOf st iid, 0 ≤ n ∧ n ≤ 127 := by
  intro n hn
  unfold activeOf at hn
  cases hset : alFind iid st.activeNotes with
  | none =>
    rw [hset] at hn
    simp at hn
  | some l =>
    rw [hset] at hn
    exact hN _ (alFind_mem hset) n hn

theorem phasesInRange_getD {st : InstrumentManager} (hP : phasesInRange st)
    (iid : Int) : phaseListOK ((alFind iid st.notePhases).getD []) := by
  cases hset : alFind iid st.notePhases with
  | none =>
    simpa using phaseListOK_nil
  | some pm =>
    simpa using hP _ (alFind_mem hset)

/-! ## C7: preservation of the invariants by each registry operation -/

theorem create_preserves (name : String) (st : InstrumentManager)
    (hN : notesInRange st) (hP : phasesInRange st) :
    notesInRange (createSineWaveInstrument name st).2 ∧
    phasesInRange (createSineWaveInstrument name st).2 := by
  unfold createSineWaveInstrument
  by_cases hc : st.nextId ≠ 0 ∧
      (alFind 0 (alUpdate st.nextId (sineInstrument name) st.instruments)).isNone = true
  · rw [if_pos hc]
    constructor
    · exact notesOK_alUpdate (notesOK_alUpdate hN (by simp)) (by simp)
    · exact phasesOK_alUpdate (phasesOK_alUpdate hP phaseListOK_nil) phaseListOK_nil
  · rw [if_neg hc]
    constructor
    · exact notesOK_alUpdate hN (by simp)
    · exact phasesOK_alUpdate hP phaseListOK_nil

theorem unload_preserves (id : Int) (st : InstrumentManager)
    (hN : notesInRange st) (hP : phasesInRange st) :
    notesInRange (unloadInstrument id st).2 ∧
    phasesInRange (unloadInstrument id st).2 := by
  unfold unloadInstrument
  cases hf : alFind id st.instruments with
  | none => exact ⟨hN, hP⟩
  | some inst =>
    constructor
    · intro p hp
      exact hN p (mem_alErase hp)
    · intro p hp
      exact hP p (mem_alErase hp)

theorem sendNoteOn_preserves (id note vel : Int) (st : InstrumentManager)
    (hN : notesInRange st) (hP : phasesInRange st) :
    notesInRange (sendNoteOn id note vel st).2 ∧
    phasesInRange (sendNoteOn id note vel st).2 := by
  unfold sendNoteOn
  split
  · exact ⟨hN, hP⟩
  · by_cases h1 : note < 0 ∨ note > 127
    · rw [if_pos h1]
      exact ⟨hN, hP⟩
    rw [if_neg h1]
    by_cases h2 : vel < 0 ∨ vel > 127
    · rw [if_pos h2]
      exact ⟨hN, hP⟩
    rw [if_neg h2]
    split
    · exact ⟨hN, hP⟩
    · split
      · constructor
        · apply notesOK_alUpdate hN
          intro n hn
          rcases mem_setInsert hn with h | h
          · exact notesInRange_activeOf hN _ n h
          · subst h
            omega
        · apply phasesOK_alUpdate hP
          apply phaseListOK_alUpdate (phasesInRange_getD hP _)
          exact ⟨le_refl 0, twoPi_pos⟩
      · exact ⟨hN, hP⟩

theorem noteOffActive_notesOK {id note : Int} {st : InstrumentManager}
    (hN : notesInRange st) : notesInRange (noteOffActive id note st) := by
  unfold noteOffActive
  cases hact : alFind id st.activeNotes with
  | none => exact hN
  | some notes =>
    dsimp only
    by_cases he : (notes.filter fun m => m ≠ note).isEmpty
    · rw [if_pos he]
      intro p hp
      exact hN p (mem_alErase hp)
    · rw [if_neg he]
      intro p hp
      rcases mem_alUpdate hp with h | h
      · exact hN p h
      · intro n hn
        rw [h] at hn
        exact hN _ (alFind_mem hact) n (List.mem_filter.mp hn).1

theorem sendNoteOff_preserves (id note : Int) (st : InstrumentManager)
    (hN : notesInRange st) (hP : phasesInRange st) :
    notesInRange (sendNoteOff id note st).2 ∧
    phasesInRange (sendNoteOff id note st).2 := by
  unfold sendNoteOff
  repeat' split
  · exact ⟨hN, hP⟩
  · exact ⟨hN, hP⟩
  · exact ⟨hN, hP⟩
  · constructor
    · intro p hp
      rw [noteOffVels_activeNotes] at hp
      exact noteOffActive_notesOK hN p hp
    · intro p hp
      rw [noteOffVels_notePhases, noteOffActive_notePhases] at hp
      exact hP p hp

theorem setVolume_preserves (id : Int) (vol : ℝ) (st : InstrumentManager)
    (hN : notesInRange st) (hP : phasesInRange st) :
    notesInRange (setInstrumentVolume id vol st).2 ∧
    phasesInRange (setInstrumentVolume id vol st).2 := by
  unfold setInstrumentVolume
  split
  · exact ⟨hN, hP⟩
  · exact ⟨hN, hP⟩

theorem stopAllNotes_preserves (st : InstrumentManager)
    (hN : notesInRange st) (hP : phasesInRange st) :
    notesInRange (stopAllNotes st) ∧ phasesInRange (stopAllNotes st) := by
  unfold stopAllNotes
  apply foldl_preserves
    (P := fun acc : InstrumentManager => notesInRange acc ∧ phasesInRange acc)
  · intro acc p hacc hp
    constructor
    · exact notesOK_alUpdate hacc.1 (by simp)
    · exact phasesOK_alUpdate hacc.2 phaseListOK_nil
  · exact ⟨hN, hP⟩

theorem stopAllNotesFor_preserves (id : Int) (st : InstrumentManager)
    (hN : notesInRange st) (hP : phasesInRange st) :
    notesInRange (stopAllNotesFor id st).2 ∧
    phasesInRange (stopAllNotesFor id st).2 := by
  unfold stopAllNotesFor
  split
  · exact ⟨hN, hP⟩
  · constructor
    · exact notesOK_alUpdate hN (by simp)
    · exact phasesOK_alUpdate hP phaseListOK_nil

theorem advanceNotePhases_OK {sr : Int} {n : ℕ} {notes : List Int}
    {pm : List (Int × ℝ)} (hsr : 14080 ≤ sr)
    (hnotes : ∀ m ∈ notes, 0 ≤ m ∧ m ≤ 127) (hpm : phaseListOK pm) :
    phaseListOK (advanceNotePhases sr n notes pm) := by
  unfold advanceNotePhases
  apply foldl_preserves
  · intro pm' note hpm' hmem
    apply phaseListOK_alUpdate hpm'
    have hb := phaseListOK_getD hpm' note
    exact phaseAdvance_mem (noteIncrement_nonneg (by omega) note)
      (noteIncrement_le_twoPi hsr (hnotes note hmem).2) n hb.1 hb.2
  · exact hpm

theorem advancePhases_OK (st : InstrumentManager) (n : ℕ)
    (hSR : 14080 ≤ st.sampleRate) (hN : notesInRange st) (hP : phasesInRange st) :
    ∀ p ∈ advancePhases st n, phaseListOK p.2 := by
  unfold advancePhases
  apply foldl_preserves
    (P := fun acc : List (Int × List (Int × ℝ)) => ∀ p ∈ acc, phaseListOK p.2)
  · intro acc e hacc he
    unfold advanceInstrumentEntry
    by_cases hc : (e.2.isEmpty || (alFind e.1 st.instruments).isNone) = true
    · rw [if_pos hc]
      exact hacc
    · rw [if_neg hc]
      apply phasesOK_alUpdate hacc
      apply advanceNotePhases_OK hSR (hN e he)
      cases hf : alFind e.1 acc with
      | none => simpa using phaseListOK_nil
      | some pm => simpa using hacc _ (alFind_mem hf)
  · exact hP

theorem renderAudio_preserves (st : InstrumentManager) (buf : ℕ → ℝ)
    (numFrames : Int) (mv : ℝ) (hSR : 14080 ≤ st.sampleRate)
    (hN : notesInRange st) (hP : phasesInRange st) :
    notesInRange (renderAudio st buf numFrames mv).1 ∧
    phasesInRange (renderAudio st buf numFrames mv).1 := by
  unfold renderAudio
  cases hinit : st.isInitialized with
  | false => exact ⟨hN, hP⟩
  | true =>
    simp only [Bool.true_eq_false, if_false]
    cases hemp : st.instruments.isEmpty with
    | true => exact ⟨hN, hP⟩
    | false =>
      cases hact : st.activeNotes.any fun e => !e.2.isEmpty with
      | false => exact ⟨hN, hP⟩
      | true =>
        simp only [Bool.true_eq_false, Bool.false_eq_true, if_false]
        exact ⟨hN, advancePhases_OK st _ hSR hN hP⟩

/-- `sendNoteOn` stores phase 0 for its note — also when the note was
already active (retrigger). -/
theorem sendNoteOn_resets_phase (id note vel : Int) (st : InstrumentManager)
    {inst : Instrument} (hinst : alFind id st.instruments = some inst)
    (htype : inst.type = InstrumentType.SINE_WAVE)
    (h1 : 0 ≤ note) (h2 : note ≤ 127) (h3 : 0 ≤ vel) (h4 : vel ≤ 127) :
    phaseEntry (sendNoteOn id note vel st).2 id note = some 0 := by
  unfold sendNoteOn
  simp only [hinst, Option.isSome_some, if_true]
  rw [if_neg (by omega), if_neg (by omega), htype]
  simp [phaseEntry, alFind_alUpdate_self]

/-- A manager running at the lowest sample rate the source's own
`MIN_SAMPLE_RATE` constant admits (8000 Hz), with the top MIDI note 127
held on instrument 1 at phase 0. -/
def lowRateManager : InstrumentManager :=
  { isInitialized := true, sampleRate := 8000, nextId := 2,
    instruments := [(1, sineInstrument "lead")],
    activeNotes := [(1, [127])],
    noteVelocities := [(1, [(127, 100)])],
    notePhases := [(1, [(127, 0)])] }

/-- C7, counterexample: at sample rate 8000 the per-sample increment of
note 127 exceeds `3π`, and the single conditional subtraction of the wrap
(`if (phase >= 2π) phase -= 2π`) cannot keep up: after rendering 2 frames
the stored phase is `≥ 2π`, outside the claimed `[0, 2π)` range. -/
theorem c7_phase_escapes_range :
    twoPi ≤ (phaseEntry (renderAudio lowRateManager (fun _ => 0) 2 1).1 1 127).getD 0 := by
  have h2p := twoPi_pos
  have hf := midiNoteToFrequency_127_ge
  have hinc : 3 / 2 * twoPi ≤ noteIncrement 8000 127 := by
    unfold noteIncrement
    have h8 : ((8000 : Int) : ℝ) = 8000 := by norm_num
    rw [h8, le_div_iff₀ (by norm_num : (0 : ℝ) < 8000)]
    nlinarith [mul_le_mul_of_nonneg_left hf h2p.le]
  have hred : (phaseEntry (renderAudio lowRateManager (fun _ => 0) 2 1).1 1 127).getD 0
      = phaseStep (noteIncrement 8000 127) (phaseStep (noteIncrement 8000 127) 0) := rfl
  have h1 : phaseStep (noteIncrement 8000 127) 0 = noteIncrement 8000 127 - twoPi := by
    unfold phaseStep
    rw [zero_add, if_pos (by linarith)]
  rw [hred, h1]
  unfold phaseStep
  rw [if_pos (by linarith)]
  linarith

/-- C7 (amended): provided the sample rate is at least the highest
representable note frequency (14080 Hz suffices; the constructor default
44100 qualifies, while low rates such as 8000 break the wrap — see the
counterexample), every registry operation preserves the invariant that all
stored phases lie in `[0, 2π)` (and all stored active notes in `[0,127]`):
`renderAudio` advances each active note's phase by `2π·f/sampleRate` per
sample wrapping back into `[0, 2π)`, the note-state operations only create
phase 0 or erase entries, and `sendNoteOn` — including a retrigger of an
already active note — resets the stored phase of its note to 0. -/
theorem c7_phase_invariant_preserved (st : InstrumentManager)
    (name : String) (id note vel numFrames : Int) (vol mv : ℝ) (buf : ℕ → ℝ)
    (hSR : 14080 ≤ st.sampleRate)
    (hN : notesInRange st) (hP : phasesInRange st) :
    (notesInRange (createSineWaveInstrument name st).2 ∧
      phasesInRange (createSineWaveInstrument name st).2) ∧
    (notesInRange (unloadInstrument id st).2 ∧
      phasesInRange (unloadInstrument id st).2) ∧
    (notesInRange (sendNoteOn id note vel st).2 ∧
      phasesInRange (sendNoteOn id note vel st).2) ∧
    (notesInRange (sendNoteOff id note st).2 ∧
      phasesInRange (sendNoteOff id note st).2) ∧
    (notesInRange (setInstrumentVolume id vol st).2 ∧
      phasesInRange (setInstrumentVolume id vol st).2) ∧
    (notesInRange (stopAllNotes st) ∧ phasesInRange (stopAllNotes st)) ∧
    (notesInRange (stopAllNotesFor id st).2 ∧
      phasesInRange (stopAllNotesFor id st).2) ∧
    (notesInRange (renderAudio st buf numFrames mv).1 ∧
      phasesInRange (renderAudio st buf numFrames mv).1) ∧
    (∀ inst, alFind id st.instruments = some inst →
      inst.type = InstrumentType.SINE_WAVE →
      0 ≤ note → note ≤ 127 → 0 ≤ vel → vel ≤ 127 →
      phaseEntry (sendNoteOn id note vel st).2 id note = some 0) :=
  ⟨create_preserves name st hN hP,
   unload_preserves id st hN hP,
   sendNoteOn_preserves id note vel st hN hP,
   sendNoteOff_preserves id note st hN hP,
   setVolume_preserves id vol st hN hP,
   stopAllNotes_preserves st hN hP,
   stopAllNotesFor_preserves id st hN hP,
   renderAudio_preserves st buf numFrames mv hSR hN hP,
   fun _ hinst htype h1 h2 h3 h4 =>
     sendNoteOn_resets_phase id note vel st hinst htype h1 h2 h3 h4⟩

/-- Witness for the amended C7 at the freshly initialized 44100 Hz manager. -/
theorem c7_phase_invariant_preserved_witness :
    phasesInRange (renderAudio (initialManager 44100) (fun _ => 0) 512 1).1 :=
  (c7_phase_invariant_preserved (initialManager 44100) "lead" 1 60 100 512 1 1
    (fun _ => 0) (by decide)
    (fun p hp => by simp [initialManager] at hp)
    (fun p hp => by simp [initialManager] at hp)).2.2.2.2.2.2.2.1.2

/-! ## C8: splitting a render call leaves the same stored phases -/

theorem phaseAdvance_add (inc : ℝ) (a b : ℕ) (p : ℝ) :
    phaseAdvance inc (a + b) p = phaseAdvance inc b (phaseAdvance inc a p) := by
  induction a generalizing p with
  | zero =>
    rw [Nat.zero_add]
    rfl
  | succ a ih =>
    rw [Nat.succ_add]
    exact ih (phaseStep inc p)

theorem alFind_advanceNotePhases_not_mem {sr : Int} {n : ℕ} {notes : List Int}
    {nt : Int} (h : nt ∉ notes) :
    ∀ pm, alFind nt (advanceNotePhases sr n notes pm) = alFind nt pm := by
  induction notes with
  | nil =>
    intro pm
    rfl
  | cons a t ih =>
    intro pm
    have hna : a ≠ nt := fun he => h (he ▸ List.mem_cons_self a t)
    have hnt : nt ∉ t := fun ht => h (List.mem_cons_of_mem a ht)
    show alFind nt (advanceNotePhases sr n t
      (alUpdate a (phaseAdvance (noteIncrement sr a) n ((alFind a pm).getD 0)) pm))
        = alFind nt pm
    rw [ih hnt, alFind_alUpdate_ne _ _ hna]

theorem alFind_advanceNotePhases {sr : Int} {n : ℕ} {notes : List Int}
    (hnd : notes.Nodup) (nt : Int) :
    ∀ pm, alFind nt (advanceNotePhases sr n notes pm) =
      if nt ∈ notes then
        some (phaseAdvance (noteIncrement sr nt) n ((alFind nt pm).getD 0))
      else alFind nt pm := by
  induction notes with
  | nil =>
    intro pm
    simp [advanceNotePhases]
  | cons a t ih =>
    intro pm
    have hat : a ∉ t := (List.nodup_cons.mp hnd).1
    have htd : t.Nodup := (List.nodup_cons.mp hnd).2
    by_cases hcase : nt = a
    · subst hcase
      show alFind nt (advanceNotePhases sr n t
        (alUpdate nt (phaseAdvance (noteIncrement sr nt) n ((alFind nt pm).getD 0)) pm))
          = _
      rw [alFind_advanceNotePhases_not_mem hat, alFind_alUpdate_self,
        if_pos (List.mem_cons_self _ _)]
    · show alFind nt (advanceNotePhases sr n t
        (alUpdate a (phaseAdvance (noteIncrement sr a) n ((alFind a pm).getD 0)) pm))
          = _
      rw [ih htd, alFind_alUpdate_ne _ _ (fun he => hcase he.symm)]
      simp [List.mem_cons, hcase]

theorem alFind_none_iff {β : Type} {k : Int} {l : List (Int × β)} :
    alFind k l = none ↔ k ∉ alKeys l := by
  induction l with
  | nil => simp [alFind, alKeys]
  | cons e t ih =>
    obtain ⟨a, b⟩ := e
    by_cases ha : a = k
    · subst ha
      simp [alFind, alKeys]
    · rw [show alKeys ((a, b) :: t) = a :: alKeys t from rfl]
      simp only [alFind, ha, if_false, List.mem_cons]
      rw [ih]
      constructor
      · intro hk h
        rcases h with h | h
        · exact ha h.symm
        · exact hk h
      · intro hk h
        exact hk (Or.inr h)

theorem alFind_advanceFold_not_mem {st : InstrumentManager} {n : ℕ}
    {l : List (Int × List Int)} {k : Int} (h : k ∉ alKeys l) :
    ∀ ps, alFind k (l.foldl (advanceInstrumentEntry st n) ps) = alFind k ps := by
  induction l with
  | nil =>
    intro ps
    rfl
  | cons e t ih =>
    intro ps
    have hk : k ∉ alKeys t := fun ht => h (List.mem_cons_of_mem _ ht)
    have hek : e.1 ≠ k := by
      intro he
      apply h
      rw [show alKeys (e :: t) = e.1 :: alKeys t from rfl, he]
      exact List.mem_cons_self _ _
    rw [List.foldl_cons, ih hk]
    unfold advanceInstrumentEntry
    by_cases hc : (e.2.isEmpty || (alFind e.1 st.instruments).isNone) = true
    · rw [if_pos hc]
    · rw [if_neg hc]
      exact alFind_alUpdate_ne _ _ hek

theorem alFind_advanceFold_mem {st : InstrumentManager} {n : ℕ} {k : Int}
    {notes : List Int} :
    ∀ {l : List (Int × List Int)}, (alKeys l).Nodup → alFind k l = some notes →
    ∀ ps, alFind k (l.foldl (advanceInstrumentEntry st n) ps) =
      if (notes.isEmpty || (alFind k st.instruments).isNone) = true then alFind k ps
      else some (advanceNotePhases st.sampleRate n notes ((alFind k ps).getD [])) := by
  intro l
  induction l with
  | nil =>
    intro _ hfind
    simp [alFind] at hfind
  | cons e t ih =>
    intro hnd hfind ps
    obtain ⟨a, ns⟩ := e
    have hnd' : (a :: alKeys t).Nodup := hnd
    have hat : a ∉ alKeys t := (List.nodup_cons.mp hnd').1
    have htd : (alKeys t).Nodup := (List.nodup_cons.mp hnd').2
    rw [List.foldl_cons]
    by_cases hcase : a = k
    · subst hcase
      have hns : ns = notes := by simpa [alFind] using hfind
      subst hns
      rw [alFind_advanceFold_not_mem hat]
      unfold advanceInstrumentEntry
      dsimp only
      by_cases hc : (ns.isEmpty || (alFind a st.instruments).isNone) = true
      · rw [if_pos hc, if_pos hc]
      · rw [if_neg hc, if_neg hc, alFind_alUpdate_self]
    · have hfind' : alFind k t = some notes := by
        simpa [alFind, hcase] using hfind
      rw [ih htd hfind' (advanceInstrumentEntry st n ps (a, ns))]
      have hps : alFind k (advanceInstrumentEntry st n ps (a, ns)) = alFind k ps := by
        unfold advanceInstrumentEntry
        dsimp only
        by_cases hc : (ns.isEmpty || (alFind a st.instruments).isNone) = true
        · rw [if_pos hc]
        · rw [if_neg hc]
          exact alFind_alUpdate_ne _ _ hcase
      rw [hps]

theorem renderAudio_uninit {st : InstrumentManager} {buf : ℕ → ℝ} {nf : Int}
    {mv : ℝ} (h : st.isInitialized = false) : renderAudio st buf nf mv = (st, buf) := by
  unfold renderAudio
  rw [if_pos h]

theorem renderAudio_state_inactive {st : InstrumentManager} {buf : ℕ → ℝ} {nf : Int}
    {mv : ℝ} (hinit : st.isInitialized = true)
    (h : st.instruments.isEmpty = true ∨
      (st.activeNotes.any fun e => !e.2.isEmpty) = false) :
    (renderAudio st buf nf mv).1 = st := by
  unfold renderAudio
  simp only [hinit, Bool.true_eq_false, if_false]
  rcases h with h | h
  · simp [h]
  · cases hemp : st.instruments.isEmpty with
    | true => simp
    | false => simp [h]

theorem renderAudio_state_main {st : InstrumentManager} {buf : ℕ → ℝ} {nf : Int}
    {mv : ℝ} (hinit : st.isInitialized = true)
    (hemp : st.instruments.isEmpty = false)
    (hact : (st.activeNotes.any fun e => !e.2.isEmpty) = true) :
    (renderAudio st buf nf mv).1
      = { st with notePhases := advancePhases st (clampFrames nf) } := by
  unfold renderAudio
  simp [hinit, hemp, hact]

theorem clampFrames_natCast {k : ℕ} (h1 : 1 ≤ k) (h2 : k ≤ 4096) :
    clampFrames (k : Int) = k := by
  unfold clampFrames
  omega

theorem advancePhases_set_notePhases (st : InstrumentManager)
    (X : List (Int × List (Int × ℝ))) (n : ℕ) :
    advancePhases { st with notePhases := X } n
      = st.activeNotes.foldl (advanceInstrumentEntry st n) X := rfl

/-- C8: starting from any registry state (with the duplicate-freedom every
reachable state has, since the C++ containers are `std::map`/`std::set`),
rendering `2*m` frames in one `renderAudio` call stores exactly the same
final phase for every note as two consecutive calls of `m` frames each with
the same buffer, master volume and sample rate. -/
theorem c8_render_split_equal (st : InstrumentManager) (buf : ℕ → ℝ) (mv : ℝ)
    (m : ℕ) (hm : 1 ≤ m) (hm2 : 2 * m ≤ 4096)
    (hkeys : (alKeys st.activeNotes).Nodup)
    (hnotes : ∀ p ∈ st.activeNotes, p.2.Nodup) :
    ∀ id note,
      phaseEntry (renderAudio st buf ((2 * m : ℕ) : Int) mv).1 id note =
      phaseEntry (renderAudio
        (renderAudio st buf ((m : ℕ) : Int) mv).1 buf ((m : ℕ) : Int) mv).1 id note := by
  intro id note
  cases hinit : st.isInitialized with
  | false => simp only [renderAudio_uninit hinit]
  | true =>
    by_cases hinact : st.instruments.isEmpty = true ∨
        (st.activeNotes.any fun e => !e.2.isEmpty) = false
    · simp only [renderAudio_state_inactive hinit hinact]
    · push_neg at hinact
      obtain ⟨he', ha'⟩ := hinact
      have hemp' : st.instruments.isEmpty = false := by
        cases h : st.instruments.isEmpty
        · rfl
        · exact absurd h he'
      have hact' : (st.activeNotes.any fun e => !e.2.isEmpty) = true := by
        cases h : st.activeNotes.any fun e => !e.2.isEmpty
        · exact absurd h ha'
        · rfl
      rw [renderAudio_state_main hinit hemp' hact',
        clampFrames_natCast (by omega) hm2,
        renderAudio_state_main hinit hemp' hact',
        clampFrames_natCast hm (by omega),
        @renderAudio_state_main { st with notePhases := advancePhases st m }
          buf ((m : ℕ) : Int) mv hinit hemp' hact',
        clampFrames_natCast hm (by omega)]
      show alFind note ((alFind id
          (st.activeNotes.foldl (advanceInstrumentEntry st (2 * m)) st.notePhases)).getD [])
        = alFind note ((alFind id
          (st.activeNotes.foldl (advanceInstrumentEntry st m)
            (st.activeNotes.foldl (advanceInstrumentEntry st m) st.notePhases))).getD [])
      cases hfind : alFind id st.activeNotes with
      | none =>
        have hmem : id ∉ alKeys st.activeNotes := alFind_none_iff.mp hfind
        rw [alFind_advanceFold_not_mem hmem, alFind_advanceFold_not_mem hmem,
          alFind_advanceFold_not_mem hmem]
      | some notes =>
        by_cases hc : (notes.isEmpty || (alFind id st.instruments).isNone) = true
        · rw [alFind_advanceFold_mem hkeys hfind, if_pos hc,
            alFind_advanceFold_mem hkeys hfind, if_pos hc,
            alFind_advanceFold_mem hkeys hfind, if_pos hc]
        · rw [alFind_advanceFold_mem hkeys hfind, if_neg hc,
            alFind_advanceFold_mem hkeys hfind, if_neg hc,
            alFind_advanceFold_mem hkeys hfind, if_neg hc]
          simp only [Option.getD_some]
          have hnd : notes.Nodup := hnotes _ (alFind_mem hfind)
          by_cases hmem : note ∈ notes
          · rw [alFind_advanceNotePhases hnd, if_pos hmem,
              alFind_advanceNotePhases hnd, if_pos hmem,
              alFind_advanceNotePhases hnd, if_pos hmem]
            simp only [Option.getD_some]
            rw [two_mul, phaseAdvance_add]
          · rw [alFind_advanceNotePhases hnd, if_neg hmem,
              alFind_advanceNotePhases hnd, if_neg hmem,
              alFind_advanceNotePhases hnd, if_neg hmem]

/-- Witness for C8: one sustained note (60 on instrument 1), 2 frames in
one call versus 1+1. -/
theorem c8_render_split_equal_witness :
    phaseEntry (renderAudio (sendNoteOn 1 60 100 oneInstrument).2
      (fun _ => 0) ((2 * 1 : ℕ) : Int) 1).1 1 60 =
    phaseEntry (renderAudio
      (renderAudio (sendNoteOn 1 60 100 oneInstrument).2 (fun _ => 0) ((1 : ℕ) : Int) 1).1
      (fun _ => 0) ((1 : ℕ) : Int) 1).1 1 60 :=
  c8_render_split_equal (sendNoteOn 1 60 100 oneInstrument).2 (fun _ => 0) 1 1
    (by decide) (by decide) (by decide) (by decide) 1 60

/-! ## C9: `startPlayback` -/

theorem note_trigger_eq (iid : Int) (notes : List (Int × SeqNote))
    (im : InstrumentManager) :
    notes.foldl (fun acc2 np =>
      if np.2.startTime ≤ 0 then
        (sendNoteOn iid np.2.noteNumber np.2.velocity acc2).2
      else acc2) im
    = ((notes.filter fun np => np.2.startTime ≤ 0).map
        (fun np => (iid, np.2.noteNumber, np.2.velocity))).foldl
        (fun acc t => (sendNoteOn t.1 t.2.1 t.2.2 acc).2) im := by
  induction notes generalizing im with
  | nil => rfl
  | cons np t ih =>
    by_cases h : np.2.startTime ≤ 0
    · simp [List.filter_cons, h, ih]
    · simp [List.filter_cons, h, ih]

theorem tracks_trigger_eq (tracks : List (Int × Track)) (im : InstrumentManager) :
    tracks.foldl (fun acc tp =>
      tp.2.notes.foldl (fun acc2 np =>
        if np.2.startTime ≤ 0 then
          (sendNoteOn tp.2.instrumentId np.2.noteNumber np.2.velocity acc2).2
        else acc2) acc) im
    = (zeroStartTriggers tracks).foldl
        (fun acc t => (sendNoteOn t.1 t.2.1 t.2.2 acc).2) im := by
  induction tracks generalizing im with
  | nil => rfl
  | cons tp t ih =>
    rw [List.foldl_cons, note_trigger_eq tp.2.instrumentId tp.2.notes im]
    rw [show zeroStartTriggers (tp :: t)
        = ((tp.2.notes.filter fun np => np.2.startTime ≤ 0).map
            (fun np => (tp.2.instrumentId, np.2.noteNumber, np.2.velocity)))
          ++ zeroStartTriggers t from rfl]
    rw [List.foldl_append]
    exact ih _

/-- A concrete second sequence for the deadlock input. -/
def noteExample : SeqNote :=
  { id := 1, noteNumber := 60, velocity := 100, startTime := 0, duration := 1 }

def trackExample : Track :=
  { id := 1, instrumentId := 1, notes := [(1, noteExample)], volume := 1 }

def seqExample : Sequence :=
  { id := 1, tempo := 120, tracks := [(1, trackExample)], isPlaying := false }

def seqExampleB : Sequence :=
  { id := 2, tempo := 120, tracks := [(2, trackExample)], isPlaying := false }

/-- A `SequenceManager` in which sequence 1 is currently playing and
sequence 2 is also loaded — the state from which the claimed
"stop the current sequence first" path of `startPlayback` would run. -/
def smPlayingExample : SequenceManager :=
  { sequences := [(1, { seqExample with isPlaying := true }), (2, seqExampleB)],
    nextSequenceId := 3, nextTrackId := 3, nextNoteId := 2,
    activeSequenceId := 1, isPlaying := true }

/-- C9: `startPlayback` on an unknown id fails with everything unchanged,
and with the transport idle it completes exactly as the claim says (marks
the sequence and transport playing, sets the active id, and applies
`sendNoteOn` for every `startTime ≤ 0` note of every track with that
track's `instrumentId` and the note's number and velocity).  But whenever a
sequence is already playing — the case the claim's "first stops any
currently playing sequence" describes — the call self-deadlocks
(`stopPlayback()` re-locks the `m_mutex` already held since line 323) and
never performs the stop, the marking or the triggers: the embedding
returns `none`. -/
theorem c9_start_playback_deadlocks (sequenceId : Int) (sm : SequenceManager)
    (im : InstrumentManager) :
    (alFind sequenceId sm.sequences = none →
      startPlayback sequenceId sm im = some (false, sm, im)) ∧
    (∀ seq, alFind sequenceId sm.sequences = some seq →
      (sm.isPlaying = true → startPlayback sequenceId sm im = none) ∧
      (sm.isPlaying = false →
        startPlayback sequenceId sm im =
          some (true,
            { sm with
                activeSequenceId := sequenceId
                sequences := alUpdate sequenceId { seq with isPlaying := true }
                  sm.sequences
                isPlaying := true },
            (zeroStartTriggers seq.tracks).foldl
              (fun acc t => (sendNoteOn t.1 t.2.1 t.2.2 acc).2) im))) := by
  constructor
  · intro hnone
    unfold startPlayback
    rw [hnone]
  · intro seq hfind
    constructor
    · intro hp
      unfold startPlayback
      rw [hfind]
      dsimp only
      rw [if_pos hp]
    · intro hp
      unfold startPlayback
      rw [hfind]
      dsimp only
      rw [if_neg (by simp [hp]), tracks_trigger_eq]

/-- Witness for C9 exercising the failing input: sequence 1 playing,
`startPlayback 2` on the known sequence 2 never completes (deadlock,
embedded as `none`) — and the idle-transport path does complete. -/
theorem c9_start_playback_deadlocks_witness :
    startPlayback 2 smPlayingExample oneInstrument = none ∧
    (startPlayback 2 { smPlayingExample with isPlaying := false }
      oneInstrument).isSome = true :=
  ⟨((c9_start_playback_deadlocks 2 smPlayingExample oneInstrument).2
      seqExampleB rfl).1 rfl,
   by rw [((c9_start_playback_deadlocks 2
        { smPlayingExample with isPlaying := false } oneInstrument).2
        seqExampleB rfl).2 rfl]; rfl⟩

end Multitracker
